import Mathlib

/-!
Verification of the crossbar-measurement-tracker repository against its
natural-language specification.

The repository is plain JavaScript in three near-duplicate variants:
a Firebase realtime-database variant (`src/script.js`, first document),
a localStorage-only variant (`src/script.js`, second document) and a
Gun.js peer-to-peer variant (`src/unnamed/part_000`).  The definitions
below are shallow embeddings of the functions of those files; each
definition's comment names the source function and lines it embeds.
JavaScript machine details that the claims depend on are modelled
explicitly: out-of-range array writes extend the array, reading a hole
or a missing index yields `undefined`, arithmetic on `undefined`
produces `NaN`, and division by zero produces `NaN` or an infinity
rather than an error.
-/

namespace Crossbar

/-- Model of the JavaScript values that can appear in a `measurements`
array: a non-negative integer (the only numbers the tracker itself ever
writes are 0..3), `NaN` (produced by arithmetic on `undefined`), and
`undefined` (produced by reading a hole or a missing index). -/
inductive JSVal where
  | num (n : Nat)
  | nan
  | undef
  deriving DecidableEq, Repr

/-- Reading `arr[i]` in JavaScript: the element when `i` is in range,
`undefined` otherwise. -/
def jsGet (l : List JSVal) (i : Nat) : JSVal :=
  l.getD i JSVal.undef

/-- Writing `arr[i] = v` in JavaScript for a non-negative index: an
in-range write replaces the element; a write past the end extends the
array, the positions in between becoming holes (which read back as the
`filler`, `undefined` for measurement arrays). -/
def jsSetD (l : List α) (i : Nat) (v : α) (filler : α) : List α :=
  if i < l.length then l.set i v
  else l ++ List.replicate (i - l.length) filler ++ [v]

/-- A measurement entry as stored by the Firebase variant
(`src/script.js` lines 197-204): name, array size, creation and
last-modification instants (ISO strings in the source, modelled as an
abstract `Nat` clock), the flat measurement array, and the optional
per-cell timestamp array (absent on entries imported from JSON or
created by the older variants). -/
structure Entry where
  name : String
  size : Nat
  createdAt : Nat
  lastModified : Nat
  measurements : List JSVal
  timestamps : Option (List (Option Nat))
  deriving DecidableEq, Repr

/-- The spec's data-model invariant for a cell array of a given size:
`cells.length = size * size` and every cell value is one of the four
enumerated states 0..3. -/
def WfCells (size : Nat) (cells : List JSVal) : Prop :=
  cells.length = size * size ∧
    ∀ v ∈ cells,
      v = JSVal.num 0 ∨ v = JSVal.num 1 ∨ v = JSVal.num 2 ∨ v = JSVal.num 3

instance : DecidablePred (fun p : Nat × List JSVal => WfCells p.1 p.2) := by
  intro p
  unfold WfCells
  infer_instance

instance (size : Nat) (cells : List JSVal) : Decidable (WfCells size cells) := by
  unfold WfCells
  infer_instance

/-- The spec's MeasurementGrid invariant, at entry level. -/
def WfEntry (e : Entry) : Prop :=
  WfCells e.size e.measurements

instance (e : Entry) : Decidable (WfEntry e) := by
  unfold WfEntry
  infer_instance

/-- The single-cell state transition of `handleCellClick`
(`src/script.js` line 325, `src/unnamed/part_000` line 241):
`(m + 1) % 4` on the current number; on `undefined` or `NaN` the
JavaScript arithmetic yields `NaN`. -/
def cellCycle (v : JSVal) : JSVal :=
  match v with
  | JSVal.num n => JSVal.num ((n + 1) % 4)
  | _ => JSVal.nan

/-- The entry mutation performed by `handleCellClick`
(`src/script.js` lines 322-339, after the `isUpdating` guard, which is
modelled at the sync layer): cycle `measurements[index]`, stamp
`lastModified`, create the `timestamps` array when absent
(lines 329-331) and stamp `timestamps[index]`.  The function performs
no bounds check of its own; an out-of-range index goes through the
JavaScript array-write semantics of `jsSetD`. -/
def handleCellClick (e : Entry) (index : Nat) (now : Nat) : Entry :=
  { e with
    measurements :=
      jsSetD e.measurements index (cellCycle (jsGet e.measurements index)) JSVal.undef
    lastModified := now
    timestamps :=
      some (jsSetD (e.timestamps.getD (List.replicate (e.size * e.size) none))
        index (some now) none) }

/-- `clearAllMeasurements` (`src/script.js` lines 457-470) after the UI
confirmation gate: reset every cell to 0 and stamp `lastModified`. -/
def clearAllMeasurements (e : Entry) (now : Nat) : Entry :=
  { e with
    measurements := List.replicate (e.size * e.size) (JSVal.num 0)
    lastModified := now }

/-- `getDeviceIndex` (`src/script.js` lines 473-485): parse the two
electrode coordinates (`none` models a `parseInt` failure, i.e. `NaN`)
and return the linear index `b * size + t`, or no index (the source's
`-1`) when either coordinate is missing or outside `[0, size)`. -/
def getDeviceIndex (size : Nat) (bottom top : Option Int) : Option Nat :=
  match bottom, top with
  | some b, some t =>
      if b < 0 ∨ (size : Int) ≤ b ∨ t < 0 ∨ (size : Int) ≤ t then none
      else some ((b * size + t).toNat)
  | _, _ => none

/-- The error taxonomy of the spec (section 7), as surfaced by the
source's `alert` calls. -/
inductive AppError where
  | EmptyNameError
  | DuplicateNameError
  | NotFoundError
  | InvalidFormatError
  deriving DecidableEq, Repr

/-- `createNewEntry` (`src/script.js` lines 183-210): reject an empty
(trimmed) name, reject a name already present in `entries`
(case-sensitive `===` comparison via `entries.find`), otherwise build
the fresh entry with every cell 0, `createdAt` and `lastModified` both
taken at the current instant, and a null-filled per-cell timestamp
array. -/
def createNewEntry (entries : List Entry) (nm : String) (size now : Nat) :
    Except AppError Entry :=
  if nm = "" then Except.error AppError.EmptyNameError
  else if (entries.find? (fun e => decide (e.name = nm))).isSome then
    Except.error AppError.DuplicateNameError
  else
    Except.ok
      { name := nm
        size := size
        createdAt := now
        lastModified := now
        measurements := List.replicate (size * size) (JSVal.num 0)
        timestamps := some (List.replicate (size * size) none) }

/-- The `statistics` block of the export document
(`src/script.js` lines 409-415): the total cell count and the count of
cells in each of the four states. -/
structure Stats where
  total : Nat
  successful : Nat
  failed : Nat
  misaligned : Nat
  unmeasured : Nat
  deriving DecidableEq, Repr

/-- One step of the coordinate-list loop of `exportCurrentEntry`
(`src/script.js` lines 431-443): push `[row, col]` onto the list that
matches the cell's state, or onto none of them. -/
def deviceListsStep (cells : List JSVal) (size : Nat)
    (acc : List (Nat × Nat) × List (Nat × Nat) × List (Nat × Nat)) (i : Nat) :
    List (Nat × Nat) × List (Nat × Nat) × List (Nat × Nat) :=
  let coord := (i / size, i % size)
  if jsGet cells i = JSVal.num 1 then (acc.1 ++ [coord], acc.2.1, acc.2.2)
  else if jsGet cells i = JSVal.num 2 then (acc.1, acc.2.1 ++ [coord], acc.2.2)
  else if jsGet cells i = JSVal.num 3 then (acc.1, acc.2.1, acc.2.2 ++ [coord])
  else acc

/-- The coordinate-list loop of `exportCurrentEntry`
(`src/script.js` lines 431-443): iterate `i` over
`0 ..< measurements.length` accumulating the three device lists. -/
def deviceLists (cells : List JSVal) (size : Nat) :
    List (Nat × Nat) × List (Nat × Nat) × List (Nat × Nat) :=
  (List.range cells.length).foldl (deviceListsStep cells size) ([], [], [])

/-- The export document built by `exportCurrentEntry`
(`src/script.js` lines 396-455), minus the browser download plumbing. -/
structure ExportDoc where
  name : String
  size : Nat
  createdAt : Nat
  lastModified : Nat
  raw : List JSVal
  grid : List (List JSVal)
  statistics : Stats
  successfulDevices : List (Nat × Nat)
  failedDevices : List (Nat × Nat)
  misalignedDevices : List (Nat × Nat)
  deriving DecidableEq, Repr

/-- `exportCurrentEntry` (`src/script.js` lines 396-455): `raw` is the
flat cell array unchanged; `grid` is the row-major 2D reconstruction
(lines 422-428); `statistics` are the filter counts (lines 409-415);
the three device lists come from the coordinate loop. -/
def exportCurrentEntry (e : Entry) : ExportDoc :=
  let size := e.size
  let lists := deviceLists e.measurements size
  { name := e.name
    size := size
    createdAt := e.createdAt
    lastModified := e.lastModified
    raw := e.measurements
    grid := (List.range size).map (fun i =>
      (List.range size).map (fun j => jsGet e.measurements (i * size + j)))
    statistics :=
      { total := e.measurements.length
        successful := (e.measurements.filter (fun m => decide (m = JSVal.num 1))).length
        failed := (e.measurements.filter (fun m => decide (m = JSVal.num 2))).length
        misaligned := (e.measurements.filter (fun m => decide (m = JSVal.num 3))).length
        unmeasured := (e.measurements.filter (fun m => decide (m = JSVal.num 0))).length }
    successfulDevices := lists.1
    failedDevices := lists.2.1
    misalignedDevices := lists.2.2 }

/-- The ordered coordinate list the spec describes for one state (spec
section 4.4): the `(row, col)` pairs of the cells in state `v`, in
ascending linear-index order.  This is the specification-side
characterization that the source's accumulating loop is proved to
refine. -/
def coordsOfState (cells : List JSVal) (size v : Nat) : List (Nat × Nat) :=
  ((List.range cells.length).filter (fun i => decide (jsGet cells i = JSVal.num v))).map
    (fun i => (i / size, i % size))

/-- A parsed JSON document handed to `importFromJSON`
(`src/script.js` lines 758-798).  Fields the document may lack are
`Option`; `raw` is `none` when either `measurements` or
`measurements.raw` is missing (the source tests both with one truthy
check). -/
structure ImportDoc where
  name : Option String
  size : Option Nat
  createdAt : Option Nat
  raw : Option (List JSVal)
  deriving DecidableEq, Repr

/-- The validation and entry construction of `importFromJSON`
(`src/script.js` lines 765-778): the document is rejected when `name`,
`size`, `measurements` or `measurements.raw` is falsy (an absent field,
an empty name string or a zero size); otherwise the entry is built with
`measurements` taken verbatim from `raw`, `createdAt` from the document
when present (`data.createdAt || now`) and `lastModified` stamped now.
The overwrite confirmation for an existing name (lines 781-785) is a UI
gate in front of the unconditional save and is not part of the
constructed entry. -/
def importFromJSON (d : ImportDoc) (now : Nat) : Except AppError Entry :=
  match d.name, d.size, d.raw with
  | some nm, some size, some raw =>
      if nm = "" ∨ size = 0 then Except.error AppError.InvalidFormatError
      else
        Except.ok
          { name := nm
            size := size
            createdAt := d.createdAt.getD now
            lastModified := now
            measurements := raw
            timestamps := none }
  | _, _, _ => Except.error AppError.InvalidFormatError

/-- Reading an export document back in as an import document: every
field `importFromJSON` looks at is present in an exported file. -/
def exportToImportDoc (d : ExportDoc) : ImportDoc :=
  { name := some d.name
    size := some d.size
    createdAt := some d.createdAt
    raw := some d.raw }

/-- The process-scoped state of the Firebase variant
(`src/script.js` lines 18-33): the `entries` array mirrored from the
store, the loaded `currentEntry`, the `isUpdating` re-entrancy guard,
whether `entriesRef` was initialized (`initializeFirebase` succeeded),
and a counter of outbound `set` (put) calls issued on `entriesRef`. -/
structure SyncState where
  entries : List Entry
  currentEntry : Option Entry
  isUpdating : Bool
  hasRef : Bool
  putCount : Nat
  deriving DecidableEq, Repr

/-- `saveEntry` (`src/script.js` lines 152-167): a no-op while the
re-entrancy guard is set or before Firebase is initialized; otherwise
one outbound put of the whole entry (the payload itself — the entry
with `lastModified` restamped, keyed by the sanitized name — does not
affect the local state, so only the put is counted). -/
def saveEntry (st : SyncState) (_e : Entry) (_now : Nat) : SyncState :=
  if st.isUpdating ∨ st.hasRef = false then st
  else { st with putCount := st.putCount + 1 }

/-- The `entriesRef.on('value', ...)` notification handler
(`src/script.js` lines 113-129): set `isUpdating`, replace the local
`entries` mirror with the snapshot, replace `currentEntry` when the
snapshot holds an entry of the same name whose serialized measurements
differ, then clear `isUpdating`.  The handler runs to completion; any
`saveEntry` fired while it runs would hit the guard. -/
def remoteNotifyStep (st : SyncState) (data : List Entry) : SyncState :=
  let st1 := { st with isUpdating := true, entries := data }
  let st2 :=
    match st1.currentEntry with
    | none => st1
    | some ce =>
        match data.find? (fun e : Entry => decide (e.name = ce.name)) with
        | some upd =>
            if upd.measurements = ce.measurements then st1
            else { st1 with currentEntry := some upd }
        | none => st1
  { st2 with isUpdating := false }

/-- A user cell interaction as processed by `handleCellClick`
(`src/script.js` lines 322-339) at the sync layer: nothing happens
while the guard is set (line 323); otherwise the loaded entry is
mutated in place and pushed through `saveEntry` (line 338).  A click
requires a rendered grid, i.e. a loaded entry. -/
def handleCellClickStep (st : SyncState) (index now : Nat) : SyncState :=
  if st.isUpdating then st
  else
    match st.currentEntry with
    | none => st
    | some ce =>
        let ce2 := handleCellClick ce index now
        saveEntry { st with currentEntry := some ce2 } ce2 now

/-- `createNewEntry` at the sync layer (`src/script.js` lines 183-210):
on a validation failure the state is untouched and the alert is
reported; on success the entry is pushed (`saveEntry`) and loaded
(`loadEntry` sets `currentEntry`). -/
def createNewEntryStep (st : SyncState) (nm : String) (size now : Nat) :
    SyncState × Option AppError :=
  match createNewEntry st.entries nm size now with
  | Except.error err => (st, some err)
  | Except.ok e =>
      ({ saveEntry st e now with currentEntry := some e }, none)

/-- The events of one client's single-threaded event loop that the
synchronization claims quantify over: a local cell edit (a click at a
linear index, carrying the instant of the click) and the arrival of a
remote change notification carrying a snapshot. -/
inductive SyncEvent where
  | localEdit (index now : Nat)
  | remoteNotify (data : List Entry)
  deriving Repr

/-- Dispatch one event to its handler. -/
def stepEvent (st : SyncState) (ev : SyncEvent) : SyncState :=
  match ev with
  | SyncEvent.localEdit i now => handleCellClickStep st i now
  | SyncEvent.remoteNotify data => remoteNotifyStep st data

/-- Run a sequence of events through the event loop. -/
def runTrace (st : SyncState) (evs : List SyncEvent) : SyncState :=
  evs.foldl stepEvent st

/-- The number of local cell edits in a trace. -/
def countLocalEdits (evs : List SyncEvent) : Nat :=
  (evs.filter (fun ev =>
    match ev with
    | SyncEvent.localEdit _ _ => true
    | _ => false)).length

/-- The character class `[a-zA-Z0-9-_]` of the Gun.js variant's
`sanitizeKey` (`src/unnamed/part_000` lines 119-121). -/
def gunAllowedChar (c : Char) : Bool :=
  c.isAlpha || c.isDigit || c = '-' || c = '_'

/-- One character of `sanitizeKey`: characters outside the allowed
class are replaced by an underscore. -/
def gunSanChar (c : Char) : Char :=
  if gunAllowedChar c then c else '_'

/-- `sanitizeKey` (`src/unnamed/part_000` lines 119-121):
`key.replace(/[^a-zA-Z0-9-_]/g, '_')` applied character by character. -/
def sanitizeKey (s : String) : String :=
  String.mk (s.data.map gunSanChar)

/-- The key used by the Gun.js variant's put path
(`src/unnamed/part_000` line 97). -/
def gunSaveKey (nm : String) : String :=
  sanitizeKey nm

/-- The key used by the Gun.js variant's delete path
(`src/unnamed/part_000` line 111). -/
def gunDeleteKey (nm : String) : String :=
  sanitizeKey nm

/-- The character class `[.#$[\]]` of the Firebase variant's inline
sanitization (`src/script.js` lines 158 and 172). -/
def fbForbiddenChar (c : Char) : Bool :=
  c = '.' || c = '#' || c = '$' || c = '[' || c = ']'

/-- One character of the Firebase sanitization: the five characters
illegal in a Firebase key are replaced by an underscore. -/
def fbSanChar (c : Char) : Char :=
  if fbForbiddenChar c then '_' else c

/-- The Firebase variant's `entry.name.replace(/[.#$[\]]/g, '_')`
(`src/script.js` lines 158 and 172), character by character. -/
def fbSanitizedName (s : String) : String :=
  String.mk (s.data.map fbSanChar)

/-- The key used by the Firebase variant's put path
(`src/script.js` line 158, inside `saveEntry`). -/
def fbSaveKey (nm : String) : String :=
  fbSanitizedName nm

/-- The key used by the Firebase variant's delete path
(`src/script.js` line 172, inside `deleteEntry`). -/
def fbDeleteKey (nm : String) : String :=
  fbSanitizedName nm

/-- The JavaScript number values reachable by the statistics
percentage computation: a finite value (modelled as an exact rational;
the claims under scrutiny concern the division-by-zero behaviour, not
binary rounding), `NaN`, and the two infinities. -/
inductive JsNum where
  | val (q : ℚ)
  | nan
  | posInf
  | negInf
  deriving DecidableEq, Repr

/-- JavaScript division restricted to the constructors above: a finite
numerator over zero yields `NaN` when the numerator is zero and a
signed infinity otherwise; `NaN` propagates; an infinity divided by a
finite value keeps or flips its sign; a finite value over an infinity
is zero; infinity over infinity is `NaN`. -/
def jsDiv (a b : JsNum) : JsNum :=
  match a, b with
  | JsNum.nan, _ => JsNum.nan
  | _, JsNum.nan => JsNum.nan
  | JsNum.val x, JsNum.val y =>
      if y = 0 then
        if x = 0 then JsNum.nan
        else if 0 < x then JsNum.posInf else JsNum.negInf
      else JsNum.val (x / y)
  | JsNum.posInf, JsNum.val y => if y < 0 then JsNum.negInf else JsNum.posInf
  | JsNum.negInf, JsNum.val y => if y < 0 then JsNum.posInf else JsNum.negInf
  | JsNum.val _, JsNum.posInf => JsNum.val 0
  | JsNum.val _, JsNum.negInf => JsNum.val 0
  | _, _ => JsNum.nan

/-- JavaScript multiplication restricted to the constructors above. -/
def jsMul (a b : JsNum) : JsNum :=
  match a, b with
  | JsNum.nan, _ => JsNum.nan
  | _, JsNum.nan => JsNum.nan
  | JsNum.val x, JsNum.val y => JsNum.val (x * y)
  | JsNum.posInf, JsNum.val y =>
      if y = 0 then JsNum.nan else if 0 < y then JsNum.posInf else JsNum.negInf
  | JsNum.val x, JsNum.posInf =>
      if x = 0 then JsNum.nan else if 0 < x then JsNum.posInf else JsNum.negInf
  | JsNum.negInf, JsNum.val y =>
      if y = 0 then JsNum.nan else if 0 < y then JsNum.negInf else JsNum.posInf
  | JsNum.val x, JsNum.negInf =>
      if x = 0 then JsNum.nan else if 0 < x then JsNum.negInf else JsNum.posInf
  | JsNum.posInf, JsNum.posInf => JsNum.posInf
  | JsNum.negInf, JsNum.negInf => JsNum.posInf
  | _, _ => JsNum.negInf

/-- One percentage of `updateStatistics` (`src/script.js` lines
366-369, identical in `src/unnamed/part_000` lines 276-279):
`(count / total) * 100`, on JavaScript numbers and with no guard on
`total`. -/
def percentOf (count total : Nat) : JsNum :=
  jsMul (jsDiv (JsNum.val count) (JsNum.val total)) (JsNum.val 100)

/-- The four percentages computed by `updateStatistics`
(`src/script.js` lines 349-370): the success, failed, misaligned and
unmeasured counts of the loaded measurement array, each divided by the
array length and scaled to a percentage (the `toFixed(1)` string
formatting is display-only and not modelled). -/
def updateStatisticsPercents (measurements : List JSVal) :
    JsNum × JsNum × JsNum × JsNum :=
  let total := measurements.length
  let successCount := (measurements.filter (fun m => decide (m = JSVal.num 1))).length
  let failedCount := (measurements.filter (fun m => decide (m = JSVal.num 2))).length
  let warningCount := (measurements.filter (fun m => decide (m = JSVal.num 3))).length
  let unmeasuredCount := (measurements.filter (fun m => decide (m = JSVal.num 0))).length
  (percentOf successCount total, percentOf failedCount total,
    percentOf warningCount total, percentOf unmeasuredCount total)

/-! ### Helper lemmas -/

theorem jsSetD_of_lt {α : Type} {l : List α} {i : Nat} (h : i < l.length)
    (v filler : α) : jsSetD l i v filler = l.set i v := by
  unfold jsSetD
  rw [if_pos h]

theorem getD_set_self {α : Type} {l : List α} {i : Nat} (h : i < l.length)
    (v d : α) : (l.set i v).getD i d = v := by
  rw [List.getD_eq_getElem _ _ (by simpa using h)]
  exact List.getElem_set_self (by simpa using h)

theorem handleCellClick_measurements {e : Entry} {i : Nat}
    (h : i < e.measurements.length) (now : Nat) :
    (handleCellClick e i now).measurements
      = e.measurements.set i (cellCycle (jsGet e.measurements i)) := by
  unfold handleCellClick
  exact jsSetD_of_lt h _ _

theorem handleCellClick_get {e : Entry} {i : Nat}
    (h : i < e.measurements.length) (now : Nat) :
    jsGet (handleCellClick e i now).measurements i
        = cellCycle (jsGet e.measurements i) ∧
      (handleCellClick e i now).measurements.length = e.measurements.length := by
  rw [handleCellClick_measurements h now]
  exact ⟨getD_set_self h _ _, List.length_set _ _ _⟩

/-! ### C6 — the state cycle -/

/-- C6: the single-cell transition of `handleCellClick` is
`next(state) = (state + 1) mod 4`, deterministic and total on the cell
states, and for every entry, every in-range cell index and every
starting state in {0, 1, 2, 3}, four consecutive `handleCellClick`
applications return the cell to its original state (cycle length
exactly 4). -/
theorem C6_state_cycle :
    (∀ n : Nat, cellCycle (JSVal.num n) = JSVal.num ((n + 1) % 4)) ∧
    ∀ (e : Entry) (i s n1 n2 n3 n4 : Nat),
      e.measurements.length = e.size * e.size →
      i < e.size * e.size →
      jsGet e.measurements i = JSVal.num s →
      s < 4 →
      jsGet (handleCellClick (handleCellClick (handleCellClick
          (handleCellClick e i n1) i n2) i n3) i n4).measurements i
        = JSVal.num s := by
  constructor
  · intro n
    rfl
  · intro e i s n1 n2 n3 n4 hlen hi hv hs
    have h1 : i < e.measurements.length := by rw [hlen]; exact hi
    obtain ⟨hg1, hl1⟩ := handleCellClick_get h1 n1
    have h2 : i < (handleCellClick e i n1).measurements.length := by
      rw [hl1]; exact h1
    obtain ⟨hg2, hl2⟩ := handleCellClick_get h2 n2
    have h3 : i < (handleCellClick (handleCellClick e i n1) i n2).measurements.length := by
      rw [hl2]; exact h2
    obtain ⟨hg3, hl3⟩ := handleCellClick_get h3 n3
    have h4 : i < (handleCellClick (handleCellClick (handleCellClick e i n1) i n2)
        i n3).measurements.length := by
      rw [hl3]; exact h3
    obtain ⟨hg4, _⟩ := handleCellClick_get h4 n4
    rw [hg4, hg3, hg2, hg1, hv]
    show JSVal.num ((((((s + 1) % 4 + 1) % 4 + 1) % 4 + 1) % 4)) = JSVal.num s
    congr 1
    omega

/-- Witness for C6 at a concrete entry: cell 5 of a fresh 8×8 array
starts at 0 and returns to 0 after four clicks. -/
theorem C6_state_cycle_witness :
    jsGet (handleCellClick (handleCellClick (handleCellClick (handleCellClick
        { name := "Wafer-A", size := 8, createdAt := 0, lastModified := 0,
          measurements := List.replicate 64 (JSVal.num 0),
          timestamps := some (List.replicate 64 none) : Entry }
        5 1) 5 2) 5 3) 5 4).measurements 5 = JSVal.num 0 :=
  C6_state_cycle.2
    { name := "Wafer-A", size := 8, createdAt := 0, lastModified := 0,
      measurements := List.replicate 64 (JSVal.num 0),
      timestamps := some (List.replicate 64 none) }
    5 0 1 2 3 4 (by decide) (by decide) (by decide) (by decide)

/-! ### C4 — mutateCell bounds behaviour -/

/-- A fresh 8×8 entry, used by the C4 counterexample and witness. -/
def c4entry : Entry :=
  { name := "Wafer-A", size := 8, createdAt := 0, lastModified := 0,
    measurements := List.replicate 64 (JSVal.num 0),
    timestamps := some (List.replicate 64 none) }

/-- Counterexample to C4 as stated: `handleCellClick` performs no
bounds check, so at index 64 of an 8×8 entry (outside `[0, 64)`) it
does not fail with `NotFoundError` and does not leave the cells
unchanged — the JavaScript write `measurements[64] = NaN` appends a
65th element. -/
theorem C4_mutateCell_counterexample :
    (handleCellClick c4entry 64 1).measurements ≠ c4entry.measurements ∧
      (handleCellClick c4entry 64 1).measurements.length = 65 := by
  decide

/-- C4 amended: `handleCellClick` itself performs no index validation
(an out-of-range index goes through the JavaScript array-write
semantics and mutates the array, as the counterexample shows); the
out-of-range protection lives at the coordinate entry points, where
`getDeviceIndex` yields no index for any coordinate outside
`[0, size)` and every index it does yield is inside `[0, size²)`.  For
every index inside `[0, size²)`, `handleCellClick` applies the state
cycle to `cells[index]`, updates `lastModified`, and records the
instant in `cellTimestamps[index]`. -/
theorem C4_mutateCell_amended :
    (∀ (e : Entry) (i now : Nat),
      e.measurements.length = e.size * e.size →
      i < e.size * e.size →
      (e.timestamps = none ∨
        ∃ ts, e.timestamps = some ts ∧ ts.length = e.size * e.size) →
      (handleCellClick e i now).measurements
          = e.measurements.set i (cellCycle (jsGet e.measurements i)) ∧
        (handleCellClick e i now).lastModified = now ∧
        ∃ ts2, (handleCellClick e i now).timestamps = some ts2 ∧
          ts2.getD i none = some now) ∧
    ∀ (size : Nat) (b t : Option Int) (idx : Nat),
      getDeviceIndex size b t = some idx → idx < size * size := by
  constructor
  · intro e i now hlen hi hts
    have h1 : i < e.measurements.length := by rw [hlen]; exact hi
    refine ⟨handleCellClick_measurements h1 now, rfl, ?_⟩
    have hbase : (e.timestamps.getD (List.replicate (e.size * e.size) none)).length
        = e.size * e.size := by
      rcases hts with h | ⟨ts, h, hl⟩
      · rw [h]
        simp
      · rw [h]
        exact hl
    have hib : i < (e.timestamps.getD (List.replicate (e.size * e.size) none)).length := by
      rw [hbase]; exact hi
    refine ⟨(e.timestamps.getD (List.replicate (e.size * e.size) none)).set i (some now),
      ?_, getD_set_self hib _ _⟩
    show some (jsSetD (e.timestamps.getD (List.replicate (e.size * e.size) none))
      i (some now) none) = _
    rw [jsSetD_of_lt hib]
  · intro size b t idx h
    match b, t with
    | none, none => exact absurd h (by simp [getDeviceIndex])
    | none, some tv => exact absurd h (by simp [getDeviceIndex])
    | some bv, none => exact absurd h (by simp [getDeviceIndex])
    | some bv, some tv =>
      simp only [getDeviceIndex] at h
      by_cases hc : bv < 0 ∨ (size : Int) ≤ bv ∨ tv < 0 ∨ (size : Int) ≤ tv
      · rw [if_pos hc] at h
        exact absurd h (by simp)
      · rw [if_neg hc] at h
        push_neg at hc
        obtain ⟨hb0, hbs, ht0, hts⟩ := hc
        obtain ⟨bn, rfl⟩ := Int.eq_ofNat_of_zero_le hb0
        obtain ⟨tn, rfl⟩ := Int.eq_ofNat_of_zero_le ht0
        have hidx : idx = bn * size + tn := by
          have : ((bn : Int) * size + tn).toNat = bn * size + tn := by
            rw [show ((bn : Int) * size + tn) = ((bn * size + tn : Nat) : Int) by push_cast; ring]
            exact Int.toNat_natCast _
          rw [← Option.some.inj h, this]
        have hbn : bn < size := by exact_mod_cast hbs
        have htn : tn < size := by exact_mod_cast hts
        rw [hidx]
        calc bn * size + tn < bn * size + size := by omega
          _ = (bn + 1) * size := by ring
          _ ≤ size * size := Nat.mul_le_mul_right size (by omega)

/-- Witness for C4's amended theorem: clicking cell 5 of a fresh 8×8
entry at instant 3 cycles that cell, stamps `lastModified = 3` and
stamps the cell timestamp, and `getDeviceIndex` maps coordinates
(0, 5) of an 8×8 grid to the in-range index 5. -/
theorem C4_mutateCell_amended_witness :
    ((handleCellClick c4entry 5 3).measurements
        = c4entry.measurements.set 5 (cellCycle (jsGet c4entry.measurements 5)) ∧
      (handleCellClick c4entry 5 3).lastModified = 3 ∧
      ∃ ts2, (handleCellClick c4entry 5 3).timestamps = some ts2 ∧
        ts2.getD 5 none = some 3) ∧
    5 < 8 * 8 :=
  ⟨C4_mutateCell_amended.1 c4entry 5 3 (by decide) (by decide)
      (Or.inr ⟨List.replicate 64 none, rfl, by decide⟩),
    C4_mutateCell_amended.2 8 (some 0) (some 5) 5 (by decide)⟩

/-! ### Sync-layer projection lemmas -/

theorem remoteNotifyStep_currentEntry (st : SyncState) (data : List Entry) :
    (remoteNotifyStep st data).currentEntry =
      match st.currentEntry with
      | none => none
      | some ce =>
          match data.find? (fun e : Entry => decide (e.name = ce.name)) with
          | some upd =>
              if upd.measurements = ce.measurements then some ce else some upd
          | none => some ce := by
  unfold remoteNotifyStep
  dsimp only
  cases st.currentEntry with
  | none => rfl
  | some ce =>
      dsimp only
      cases data.find? (fun e : Entry => decide (e.name = ce.name)) with
      | none => rfl
      | some upd =>
          dsimp only
          by_cases h : upd.measurements = ce.measurements
          · rw [if_pos h, if_pos h]
          · rw [if_neg h, if_neg h]

theorem remoteNotifyStep_fields (st : SyncState) (data : List Entry) :
    (remoteNotifyStep st data).isUpdating = false ∧
      (remoteNotifyStep st data).hasRef = st.hasRef ∧
      (remoteNotifyStep st data).putCount = st.putCount := by
  unfold remoteNotifyStep
  dsimp only
  cases st.currentEntry with
  | none => exact ⟨rfl, rfl, rfl⟩
  | some ce =>
      dsimp only
      cases data.find? (fun e : Entry => decide (e.name = ce.name)) with
      | none => exact ⟨rfl, rfl, rfl⟩
      | some upd =>
          dsimp only
          by_cases h : upd.measurements = ce.measurements
          · rw [if_pos h]
            exact ⟨rfl, rfl, rfl⟩
          · rw [if_neg h]
            exact ⟨rfl, rfl, rfl⟩

/-! ### C2 — the MeasurementGrid invariant -/

/-- An import document that passes `importFromJSON`'s presence check
but whose raw cell array violates the grid invariant. -/
def c2doc : ImportDoc :=
  { name := some "X", size := some 8, createdAt := none, raw := some [JSVal.num 5] }

/-- The entry `importFromJSON` builds from `c2doc` at instant 0. -/
def c2imported : Entry :=
  { name := "X", size := 8, createdAt := 0, lastModified := 0,
    measurements := [JSVal.num 5], timestamps := none }

/-- Counterexample to C2 as stated: import is one of the listed
mutating operations, yet `importFromJSON` only checks that `name`,
`size` and `measurements.raw` are present — a document with `size = 8`
and `raw = [5]` is accepted and produces an entry whose cell array has
length 1 ≠ 64 and holds the out-of-range value 5, violating the
invariant. -/
theorem C2_invariant_counterexample :
    importFromJSON c2doc 0 = Except.ok c2imported ∧ ¬ WfEntry c2imported := by
  constructor
  · rfl
  · decide

/-- C2 amended: the invariant `cells.length = size²` with every cell in
{0, 1, 2, 3} holds after creation, after `clearAllMeasurements`, after
an in-range `handleCellClick`, and after applying a remote notification
whose entries satisfy it; `importFromJSON` copies `measurements.raw`
verbatim, so the imported entry satisfies the invariant exactly when
the document's raw array already does — the import validation itself
does not enforce it. -/
theorem C2_invariant_amended :
    (∀ (entries : List Entry) (nm : String) (size now : Nat) (e : Entry),
      createNewEntry entries nm size now = Except.ok e → WfEntry e) ∧
    (∀ (e : Entry) (now : Nat), WfEntry (clearAllMeasurements e now)) ∧
    (∀ (e : Entry) (i now : Nat), WfEntry e → i < e.size * e.size →
      WfEntry (handleCellClick e i now)) ∧
    (∀ (d : ImportDoc) (now : Nat) (e : Entry), importFromJSON d now = Except.ok e →
      (WfEntry e ↔ WfCells (d.size.getD 0) (d.raw.getD []))) ∧
    (∀ (st : SyncState) (data : List Entry) (ce2 : Entry),
      (∀ e ∈ data, WfEntry e) →
      (∀ ce, st.currentEntry = some ce → WfEntry ce) →
      (remoteNotifyStep st data).currentEntry = some ce2 → WfEntry ce2) := by
  refine ⟨?_, ?_, ?_, ?_, ?_⟩
  · intro entries nm size now e h
    unfold createNewEntry at h
    split at h
    · exact absurd h (by simp)
    · split at h
      · exact absurd h (by simp)
      · injection h with h2
        subst h2
        exact ⟨by simp, fun v hv => Or.inl (List.eq_of_mem_replicate hv)⟩
  · intro e now
    exact ⟨by simp [clearAllMeasurements], fun v hv =>
      Or.inl (List.eq_of_mem_replicate hv)⟩
  · intro e i now hwf hi
    obtain ⟨hlen, hvals⟩ := hwf
    have h1 : i < e.measurements.length := by rw [hlen]; exact hi
    unfold WfEntry WfCells
    constructor
    · rw [handleCellClick_measurements h1]
      simpa using hlen
    · intro v hv
      rw [handleCellClick_measurements h1] at hv
      rcases List.mem_or_eq_of_mem_set hv with hv2 | rfl
      · exact hvals v hv2
      · have hmem : jsGet e.measurements i ∈ e.measurements := by
          unfold jsGet
          rw [List.getD_eq_getElem _ _ h1]
          exact List.getElem_mem h1
        rcases hvals _ hmem with h | h | h | h <;> rw [h] <;> decide
  · intro d now e h
    obtain ⟨dn, ds, dc, dr⟩ := d
    cases dn with
    | none => exact absurd h (by simp [importFromJSON])
    | some nm =>
      cases ds with
      | none => exact absurd h (by simp [importFromJSON])
      | some size =>
        cases dr with
        | none => exact absurd h (by simp [importFromJSON])
        | some raw =>
          simp only [importFromJSON] at h
          split at h
          · exact absurd h (by simp)
          · injection h with h2
            subst h2
            exact Iff.rfl
  · intro st data ce2 hdata hcur h
    rw [remoteNotifyStep_currentEntry] at h
    cases hce : st.currentEntry with
    | none =>
        rw [hce] at h
        dsimp only at h
        exact absurd h (by simp)
    | some ce =>
        rw [hce] at h
        dsimp only at h
        cases hfind : data.find? (fun e : Entry => decide (e.name = ce.name)) with
        | none =>
            rw [hfind] at h
            injection h with h2
            exact h2 ▸ hcur ce hce
        | some upd =>
            rw [hfind] at h
            dsimp only at h
            by_cases hm : upd.measurements = ce.measurements
            · rw [if_pos hm] at h
              injection h with h2
              exact h2 ▸ hcur ce hce
            · rw [if_neg hm] at h
              injection h with h2
              exact h2 ▸ hdata upd (List.mem_of_find?_eq_some hfind)

/-- Witness for C2's amended theorem on concrete inputs: a freshly
created 8×8 entry satisfies the invariant, clicking its cell 5 keeps
it, clearing keeps it, the self-round-trip import of a well-formed raw
array satisfies it, and applying a remote snapshot carrying a
well-formed entry keeps the loaded entry well-formed. -/
theorem C2_invariant_amended_witness :
    WfEntry c4entry ∧
      WfEntry (clearAllMeasurements c4entry 2) ∧
      WfEntry (handleCellClick c4entry 5 3) ∧
      (WfEntry c2imported ↔ WfCells 8 [JSVal.num 5]) ∧
      WfEntry c4entry :=
  ⟨C2_invariant_amended.1 [] "Wafer-A" 8 0 c4entry (by rfl),
    C2_invariant_amended.2.1 c4entry 2,
    C2_invariant_amended.2.2.1 c4entry 5 3 (by decide) (by decide),
    C2_invariant_amended.2.2.2.1 c2doc 0 c2imported (by rfl),
    C2_invariant_amended.2.2.2.2
      { entries := [], currentEntry := some c4entry, isUpdating := false,
        hasRef := true, putCount := 0 }
      [c4entry] c4entry
      (by intro e he; rw [List.mem_singleton] at he; rw [he]; decide)
      (by intro ce hce; injection hce with h2; rw [← h2]; decide)
      (by decide)⟩

/-! ### C5 — duplicate create -/

/-- C5: with a non-empty requested name, if the store already holds
exactly one entry of that exact (case-sensitive) name then
`createNewEntry` fails with `DuplicateNameError`, the state is left
untouched and the store still holds exactly one entry of that name;
if no entry of that name exists, the call succeeds, loads the created
entry, and that entry has every cell `Unmeasured` and
`createdAt = lastModified = now`. -/
theorem C5_duplicate_create :
    ∀ (st : SyncState) (nm : String) (size now : Nat),
      (nm ≠ "" →
        (st.entries.filter (fun e : Entry => decide (e.name = nm))).length = 1 →
        createNewEntryStep st nm size now = (st, some AppError.DuplicateNameError) ∧
          ((createNewEntryStep st nm size now).1.entries.filter
            (fun e : Entry => decide (e.name = nm))).length = 1) ∧
      (nm ≠ "" →
        (∀ e ∈ st.entries, e.name ≠ nm) →
        (createNewEntryStep st nm size now).2 = none ∧
          ∃ e2, (createNewEntryStep st nm size now).1.currentEntry = some e2 ∧
            e2.name = nm ∧ e2.size = size ∧
            e2.measurements = List.replicate (size * size) (JSVal.num 0) ∧
            e2.createdAt = now ∧ e2.lastModified = now) := by
  intro st nm size now
  constructor
  · intro hne hcount
    have hmem : ∃ e ∈ st.entries, decide (e.name = nm) = true := by
      have hlen : 0 < (st.entries.filter (fun e : Entry => decide (e.name = nm))).length := by
        omega
      obtain ⟨e, he⟩ := List.exists_mem_of_length_pos hlen
      exact ⟨e, (List.mem_filter.mp he).1, (List.mem_filter.mp he).2⟩
    have hfind : (st.entries.find? (fun e : Entry => decide (e.name = nm))).isSome :=
      List.find?_isSome.mpr hmem
    have hcreate : createNewEntry st.entries nm size now
        = Except.error AppError.DuplicateNameError := by
      unfold createNewEntry
      rw [if_neg hne, if_pos hfind]
    have hstep : createNewEntryStep st nm size now = (st, some AppError.DuplicateNameError) := by
      unfold createNewEntryStep
      rw [hcreate]
    exact ⟨hstep, by rw [hstep]; exact hcount⟩
  · intro hne hnone
    have hfind : st.entries.find? (fun e : Entry => decide (e.name = nm)) = none := by
      rw [List.find?_eq_none]
      intro e he
      simpa using hnone e he
    have hcreate : createNewEntry st.entries nm size now
        = Except.ok
            { name := nm, size := size, createdAt := now, lastModified := now,
              measurements := List.replicate (size * size) (JSVal.num 0),
              timestamps := some (List.replicate (size * size) none) } := by
      unfold createNewEntry
      rw [if_neg hne]
      rw [if_neg (by rw [hfind]; simp)]
    constructor
    · show (createNewEntryStep st nm size now).2 = none
      unfold createNewEntryStep
      rw [hcreate]
    · unfold createNewEntryStep
      rw [hcreate]
      exact ⟨_, rfl, rfl, rfl, rfl, rfl, rfl⟩

/-- Witness for C5 at a concrete store: with one entry named
"Wafer-A" present, creating "Wafer-A" again fails with
`DuplicateNameError` and leaves the single entry in place; creating
"Wafer-B" in the same store succeeds with a fresh all-zero grid. -/
theorem C5_duplicate_create_witness :
    (createNewEntryStep
        { entries := [c4entry], currentEntry := none, isUpdating := false,
          hasRef := true, putCount := 1 } "Wafer-A" 8 5
      = ({ entries := [c4entry], currentEntry := none, isUpdating := false,
            hasRef := true, putCount := 1 }, some AppError.DuplicateNameError) ∧
      ((createNewEntryStep
          { entries := [c4entry], currentEntry := none, isUpdating := false,
            hasRef := true, putCount := 1 } "Wafer-A" 8 5).1.entries.filter
        (fun e : Entry => decide (e.name = "Wafer-A"))).length = 1) ∧
    ((createNewEntryStep
        { entries := [c4entry], currentEntry := none, isUpdating := false,
          hasRef := true, putCount := 1 } "Wafer-B" 8 5).2 = none ∧
      ∃ e2, (createNewEntryStep
          { entries := [c4entry], currentEntry := none, isUpdating := false,
            hasRef := true, putCount := 1 } "Wafer-B" 8 5).1.currentEntry = some e2 ∧
        e2.name = "Wafer-B" ∧ e2.size = 8 ∧
        e2.measurements = List.replicate (8 * 8) (JSVal.num 0) ∧
        e2.createdAt = 5 ∧ e2.lastModified = 5) :=
  ⟨(C5_duplicate_create
      { entries := [c4entry], currentEntry := none, isUpdating := false,
        hasRef := true, putCount := 1 } "Wafer-A" 8 5).1
      (by decide) (by decide),
    (C5_duplicate_create
      { entries := [c4entry], currentEntry := none, isUpdating := false,
        hasRef := true, putCount := 1 } "Wafer-B" 8 5).2
      (by decide)
      (by intro e he; rw [List.mem_singleton] at he; rw [he]; decide)⟩

/-! ### C3 — export/import round trip -/

/-- C3: for every entry whose export passes the import presence check
(non-empty name, non-zero size — true of every entry the application
creates), importing the exported document succeeds, and re-exporting
the imported entry reproduces `measurements.raw`, `measurements.grid`,
the whole `statistics` block and the three device lists exactly;
only the timestamps (`lastModified`, excluded by the claim) change. -/
theorem C3_export_roundtrip :
    ∀ (e : Entry) (now : Nat), e.name ≠ "" → e.size ≠ 0 →
      ∃ e2, importFromJSON (exportToImportDoc (exportCurrentEntry e)) now = Except.ok e2 ∧
        (exportCurrentEntry e2).raw = (exportCurrentEntry e).raw ∧
        (exportCurrentEntry e2).grid = (exportCurrentEntry e).grid ∧
        (exportCurrentEntry e2).statistics = (exportCurrentEntry e).statistics ∧
        (exportCurrentEntry e2).successfulDevices = (exportCurrentEntry e).successfulDevices ∧
        (exportCurrentEntry e2).failedDevices = (exportCurrentEntry e).failedDevices ∧
        (exportCurrentEntry e2).misalignedDevices = (exportCurrentEntry e).misalignedDevices := by
  intro e now hn hs
  refine ⟨Entry.mk e.name e.size e.createdAt now e.measurements none,
    ?_, rfl, rfl, rfl, rfl, rfl, rfl⟩
  show importFromJSON
      { name := some e.name, size := some e.size, createdAt := some e.createdAt,
        raw := some e.measurements } now = _
  simp only [importFromJSON]
  rw [if_neg (by simp [hn, hs])]
  rfl

/-- Witness for C3: the round trip is exact on a small concrete entry
with one cell in each non-unmeasured state. -/
theorem C3_export_roundtrip_witness :
    ∃ e2, importFromJSON (exportToImportDoc (exportCurrentEntry
        { name := "W", size := 2, createdAt := 4, lastModified := 6,
          measurements := [JSVal.num 1, JSVal.num 2, JSVal.num 3, JSVal.num 0],
          timestamps := none })) 9 = Except.ok e2 ∧
      (exportCurrentEntry e2).raw = (exportCurrentEntry
        { name := "W", size := 2, createdAt := 4, lastModified := 6,
          measurements := [JSVal.num 1, JSVal.num 2, JSVal.num 3, JSVal.num 0],
          timestamps := none }).raw ∧
      (exportCurrentEntry e2).grid = (exportCurrentEntry
        { name := "W", size := 2, createdAt := 4, lastModified := 6,
          measurements := [JSVal.num 1, JSVal.num 2, JSVal.num 3, JSVal.num 0],
          timestamps := none }).grid ∧
      (exportCurrentEntry e2).statistics = (exportCurrentEntry
        { name := "W", size := 2, createdAt := 4, lastModified := 6,
          measurements := [JSVal.num 1, JSVal.num 2, JSVal.num 3, JSVal.num 0],
          timestamps := none }).statistics ∧
      (exportCurrentEntry e2).successfulDevices = (exportCurrentEntry
        { name := "W", size := 2, createdAt := 4, lastModified := 6,
          measurements := [JSVal.num 1, JSVal.num 2, JSVal.num 3, JSVal.num 0],
          timestamps := none }).successfulDevices ∧
      (exportCurrentEntry e2).failedDevices = (exportCurrentEntry
        { name := "W", size := 2, createdAt := 4, lastModified := 6,
          measurements := [JSVal.num 1, JSVal.num 2, JSVal.num 3, JSVal.num 0],
          timestamps := none }).failedDevices ∧
      (exportCurrentEntry e2).misalignedDevices = (exportCurrentEntry
        { name := "W", size := 2, createdAt := 4, lastModified := 6,
          measurements := [JSVal.num 1, JSVal.num 2, JSVal.num 3, JSVal.num 0],
          timestamps := none }).misalignedDevices :=
  C3_export_roundtrip
    { name := "W", size := 2, createdAt := 4, lastModified := 6,
      measurements := [JSVal.num 1, JSVal.num 2, JSVal.num 3, JSVal.num 0],
      timestamps := none }
    9 (by decide) (by decide)

/-! ### C1 — self-echo suppression and put counting -/

theorem countLocalEdits_nil : countLocalEdits [] = 0 := rfl

theorem countLocalEdits_cons_local (i now : Nat) (evs : List SyncEvent) :
    countLocalEdits (SyncEvent.localEdit i now :: evs) = countLocalEdits evs + 1 := by
  unfold countLocalEdits
  rw [List.filter_cons]
  simp

theorem countLocalEdits_cons_remote (data : List Entry) (evs : List SyncEvent) :
    countLocalEdits (SyncEvent.remoteNotify data :: evs) = countLocalEdits evs := by
  unfold countLocalEdits
  rw [List.filter_cons]
  simp

theorem handleCellClickStep_fields (st : SyncState) (i now : Nat)
    (h1 : st.isUpdating = false) (h2 : st.hasRef = true)
    (h3 : st.currentEntry.isSome = true) :
    (handleCellClickStep st i now).isUpdating = false ∧
      (handleCellClickStep st i now).hasRef = true ∧
      (handleCellClickStep st i now).currentEntry.isSome = true ∧
      (handleCellClickStep st i now).putCount = st.putCount + 1 := by
  cases hce : st.currentEntry with
  | none => rw [hce] at h3; simp at h3
  | some ce =>
      unfold handleCellClickStep saveEntry
      rw [hce]
      simp [h1, h2]

theorem stepEvent_inv (st : SyncState) (ev : SyncEvent)
    (h1 : st.isUpdating = false) (h2 : st.hasRef = true)
    (h3 : st.currentEntry.isSome = true) :
    (stepEvent st ev).isUpdating = false ∧
      (stepEvent st ev).hasRef = true ∧
      (stepEvent st ev).currentEntry.isSome = true ∧
      (stepEvent st ev).putCount
        = st.putCount + countLocalEdits [ev] := by
  cases ev with
  | localEdit i now =>
      have h := handleCellClickStep_fields st i now h1 h2 h3
      simpa [stepEvent, countLocalEdits_cons_local, countLocalEdits_nil] using h
  | remoteNotify data =>
      obtain ⟨f1, f2, f3⟩ := remoteNotifyStep_fields st data
      refine ⟨f1, ?_, ?_, ?_⟩
      · show (remoteNotifyStep st data).hasRef = true
        rw [f2]
        exact h2
      · show (remoteNotifyStep st data).currentEntry.isSome = true
        rw [remoteNotifyStep_currentEntry]
        cases hce : st.currentEntry with
        | none => rw [hce] at h3; simp at h3
        | some ce =>
            dsimp only
            cases data.find? (fun e : Entry => decide (e.name = ce.name)) with
            | none => rfl
            | some upd =>
                dsimp only
                by_cases hm : upd.measurements = ce.measurements
                · rw [if_pos hm]; rfl
                · rw [if_neg hm]; rfl
      · show (remoteNotifyStep st data).putCount
            = st.putCount + countLocalEdits [SyncEvent.remoteNotify data]
        rw [countLocalEdits_cons_remote, countLocalEdits_nil, f3]
        omega

/-- C1: while the `isUpdating` re-entrancy guard is set, every call to
the push path `saveEntry` is suppressed (it returns the state
unchanged, issuing no put); consequently, over any interleaving of
local cell edits and remote change notifications processed by the
single-threaded event loop of an initialized client with a loaded
entry, the number of outbound puts grows by exactly the number of
local edits — N edits mean exactly N puts, never 2N or more. -/
theorem C1_echo_suppression :
    (∀ (st : SyncState) (e : Entry) (now : Nat),
      st.isUpdating = true → saveEntry st e now = st) ∧
    ∀ (evs : List SyncEvent) (st : SyncState),
      st.isUpdating = false → st.hasRef = true → st.currentEntry.isSome = true →
      (runTrace st evs).putCount = st.putCount + countLocalEdits evs := by
  constructor
  · intro st e now h
    unfold saveEntry
    rw [if_pos (Or.inl h)]
  · intro evs
    induction evs with
    | nil =>
        intro st _ _ _
        rw [countLocalEdits_nil]
        rfl
    | cons ev evs ih =>
        intro st h1 h2 h3
        obtain ⟨g1, g2, g3, g4⟩ := stepEvent_inv st ev h1 h2 h3
        have hrun : runTrace st (ev :: evs) = runTrace (stepEvent st ev) evs := rfl
        rw [hrun, ih (stepEvent st ev) g1 g2 g3, g4]
        cases ev with
        | localEdit i now =>
            rw [countLocalEdits_cons_local, countLocalEdits_cons_local,
              countLocalEdits_nil]
            omega
        | remoteNotify data =>
            rw [countLocalEdits_cons_remote, countLocalEdits_cons_remote,
              countLocalEdits_nil]
            omega

/-- Witness for C1 on a concrete trace: with an 8×8 entry loaded, two
local edits interleaved with one remote notification (which carries the
just-written entry back — the self-echo) produce exactly two puts. -/
theorem C1_echo_suppression_witness :
    (runTrace
        { entries := [c4entry], currentEntry := some c4entry, isUpdating := false,
          hasRef := true, putCount := 0 }
        [SyncEvent.localEdit 0 1, SyncEvent.remoteNotify [c4entry],
          SyncEvent.localEdit 1 2]).putCount
      = 0 + countLocalEdits
          [SyncEvent.localEdit 0 1, SyncEvent.remoteNotify [c4entry],
            SyncEvent.localEdit 1 2] ∧
    countLocalEdits
        [SyncEvent.localEdit 0 1, SyncEvent.remoteNotify [c4entry],
          SyncEvent.localEdit 1 2] = 2 :=
  ⟨C1_echo_suppression.2
      [SyncEvent.localEdit 0 1, SyncEvent.remoteNotify [c4entry],
        SyncEvent.localEdit 1 2]
      { entries := [c4entry], currentEntry := some c4entry, isUpdating := false,
        hasRef := true, putCount := 0 }
      rfl rfl rfl,
    by decide⟩

/-! ### C8 — statistics partition -/

theorem filter_counts_partition :
    ∀ l : List JSVal,
      (∀ v ∈ l, v = JSVal.num 0 ∨ v = JSVal.num 1 ∨ v = JSVal.num 2 ∨ v = JSVal.num 3) →
      (l.filter (fun m => decide (m = JSVal.num 1))).length
        + (l.filter (fun m => decide (m = JSVal.num 2))).length
        + (l.filter (fun m => decide (m = JSVal.num 3))).length
        + (l.filter (fun m => decide (m = JSVal.num 0))).length
        = l.length := by
  intro l
  induction l with
  | nil => intro _; rfl
  | cons x xs ih =>
      intro h
      have hx := h x (List.mem_cons_self x xs)
      have ih2 := ih (fun v hv => h v (List.mem_cons_of_mem x hv))
      rcases hx with rfl | rfl | rfl | rfl <;>
        simp only [List.filter_cons, List.length_cons] <;> simp <;> omega

/-- C8: for every grid satisfying the cell invariant, the exported
statistics partition the cells —
`successful + failed + misaligned + unmeasured = total = size²`. -/
theorem C8_statistics_sum :
    ∀ e : Entry, WfEntry e →
      (exportCurrentEntry e).statistics.successful
          + (exportCurrentEntry e).statistics.failed
          + (exportCurrentEntry e).statistics.misaligned
          + (exportCurrentEntry e).statistics.unmeasured
        = (exportCurrentEntry e).statistics.total ∧
      (exportCurrentEntry e).statistics.total = e.size * e.size := by
  intro e hwf
  obtain ⟨hlen, hvals⟩ := hwf
  exact ⟨filter_counts_partition e.measurements hvals, hlen⟩

/-- Witness for C8 on a concrete 2×2 grid holding one cell of each
state: 1 + 1 + 1 + 1 = 4 = 2². -/
theorem C8_statistics_sum_witness :
    (exportCurrentEntry
        { name := "W", size := 2, createdAt := 0, lastModified := 0,
          measurements := [JSVal.num 0, JSVal.num 1, JSVal.num 2, JSVal.num 3],
          timestamps := none }).statistics.successful
        + (exportCurrentEntry
        { name := "W", size := 2, createdAt := 0, lastModified := 0,
          measurements := [JSVal.num 0, JSVal.num 1, JSVal.num 2, JSVal.num 3],
          timestamps := none }).statistics.failed
        + (exportCurrentEntry
        { name := "W", size := 2, createdAt := 0, lastModified := 0,
          measurements := [JSVal.num 0, JSVal.num 1, JSVal.num 2, JSVal.num 3],
          timestamps := none }).statistics.misaligned
        + (exportCurrentEntry
        { name := "W", size := 2, createdAt := 0, lastModified := 0,
          measurements := [JSVal.num 0, JSVal.num 1, JSVal.num 2, JSVal.num 3],
          timestamps := none }).statistics.unmeasured
      = (exportCurrentEntry
        { name := "W", size := 2, createdAt := 0, lastModified := 0,
          measurements := [JSVal.num 0, JSVal.num 1, JSVal.num 2, JSVal.num 3],
          timestamps := none }).statistics.total ∧
    (exportCurrentEntry
        { name := "W", size := 2, createdAt := 0, lastModified := 0,
          measurements := [JSVal.num 0, JSVal.num 1, JSVal.num 2, JSVal.num 3],
          timestamps := none }).statistics.total = 2 * 2 :=
  C8_statistics_sum
    { name := "W", size := 2, createdAt := 0, lastModified := 0,
      measurements := [JSVal.num 0, JSVal.num 1, JSVal.num 2, JSVal.num 3],
      timestamps := none }
    (by decide)

/-! ### C9 — percentage divide-by-zero -/

/-- Counterexample to C9 as stated: `updateStatistics` computes each
percentage as `(count / total) * 100` with no guard on `total`; on an
empty measurement array (`total = 0`) the division by zero is reached
and all four percentages evaluate to `NaN` — not a finite numeric
value, so the computation is not guarded against division by zero. -/
theorem C9_percent_counterexample :
    updateStatisticsPercents []
        = (JsNum.nan, JsNum.nan, JsNum.nan, JsNum.nan) ∧
      ¬ ∃ q : ℚ, (updateStatisticsPercents []).1 = JsNum.val q := by
  constructor
  · rfl
  · rintro ⟨q, hq⟩
    exact JsNum.noConfusion hq

/-- C9 amended: the percentage computation performs the division
unguarded; JavaScript division is total, so no exception can occur,
but with `total = 0` every percentage is `NaN` (the UI renders
"NaN%"), while with `total ≠ 0` each percentage is the exact finite
value `count / total × 100`. -/
theorem C9_percent_amended :
    ∀ cells : List JSVal,
      (cells.length = 0 →
        updateStatisticsPercents cells
          = (JsNum.nan, JsNum.nan, JsNum.nan, JsNum.nan)) ∧
      (cells.length ≠ 0 →
        updateStatisticsPercents cells
          = (JsNum.val (((cells.filter (fun m => decide (m = JSVal.num 1))).length : ℚ)
                / (cells.length : ℚ) * 100),
             JsNum.val (((cells.filter (fun m => decide (m = JSVal.num 2))).length : ℚ)
                / (cells.length : ℚ) * 100),
             JsNum.val (((cells.filter (fun m => decide (m = JSVal.num 3))).length : ℚ)
                / (cells.length : ℚ) * 100),
             JsNum.val (((cells.filter (fun m => decide (m = JSVal.num 0))).length : ℚ)
                / (cells.length : ℚ) * 100))) := by
  intro cells
  constructor
  · intro h
    rw [List.length_eq_zero] at h
    subst h
    rfl
  · intro h
    have htot : ((cells.length : ℚ)) ≠ 0 := by
      exact_mod_cast h
    have hcount : ∀ p : JSVal → Bool,
        percentOf (cells.filter p).length cells.length
          = JsNum.val (((cells.filter p).length : ℚ) / (cells.length : ℚ) * 100) := by
      intro p
      unfold percentOf jsDiv jsMul
      dsimp only
      rw [if_neg htot]
    unfold updateStatisticsPercents
    dsimp only
    rw [hcount, hcount, hcount, hcount]

/-- Witness for C9's amended theorem: the empty array yields four
`NaN` percentages, and a one-cell successful array yields 100%. -/
theorem C9_percent_amended_witness :
    updateStatisticsPercents []
        = (JsNum.nan, JsNum.nan, JsNum.nan, JsNum.nan) ∧
      updateStatisticsPercents [JSVal.num 1]
        = (JsNum.val ((1 : ℚ) / (1 : ℚ) * 100), JsNum.val ((0 : ℚ) / (1 : ℚ) * 100),
           JsNum.val ((0 : ℚ) / (1 : ℚ) * 100), JsNum.val ((0 : ℚ) / (1 : ℚ) * 100)) :=
  ⟨(C9_percent_amended []).1 rfl,
    (C9_percent_amended [JSVal.num 1]).2 (by decide)⟩

/-! ### C10 — key sanitization -/

theorem gunSanChar_closed (c : Char) : gunAllowedChar (gunSanChar c) = true := by
  unfold gunSanChar
  by_cases h : gunAllowedChar c = true
  · rw [if_pos h]
    exact h
  · rw [if_neg h]
    decide

theorem gunSanChar_idem (c : Char) : gunSanChar (gunSanChar c) = gunSanChar c := by
  unfold gunSanChar
  by_cases h : gunAllowedChar c = true
  · rw [if_pos h, if_pos h]
  · rw [if_neg h, if_pos (by decide)]

theorem fbSanChar_closed (c : Char) : fbForbiddenChar (fbSanChar c) = false := by
  unfold fbSanChar
  by_cases h : fbForbiddenChar c = true
  · rw [if_pos h]
    decide
  · rw [if_neg h]
    exact Bool.not_eq_true _ ▸ h

theorem fbSanChar_idem (c : Char) : fbSanChar (fbSanChar c) = fbSanChar c := by
  unfold fbSanChar
  by_cases h : fbForbiddenChar c = true
  · rw [if_pos h, if_neg (by decide)]
  · rw [if_neg h, if_neg h]

/-- C10: each store variant's key sanitization is closed over its
allowed character set (the replacement character `_` included) —
every character of a sanitized Gun.js key lies in `[a-zA-Z0-9-_]`,
and no character of a sanitized Firebase key is one of `. # $ [ ]` —
hence each sanitization is idempotent; and within each variant the put
path and the delete path apply the same sanitization function to the
entry name. -/
theorem C10_sanitize :
    (∀ s : String, ∀ c ∈ (sanitizeKey s).data, gunAllowedChar c = true) ∧
      (∀ s : String, sanitizeKey (sanitizeKey s) = sanitizeKey s) ∧
      (∀ s : String, ∀ c ∈ (fbSanitizedName s).data, fbForbiddenChar c = false) ∧
      (∀ s : String, fbSanitizedName (fbSanitizedName s) = fbSanitizedName s) ∧
      (∀ s : String, gunSaveKey s = gunDeleteKey s) ∧
      (∀ s : String, fbSaveKey s = fbDeleteKey s) := by
  refine ⟨?_, ?_, ?_, ?_, fun s => rfl, fun s => rfl⟩
  · intro s c hc
    obtain ⟨a, _, rfl⟩ := List.mem_map.mp hc
    exact gunSanChar_closed a
  · intro s
    unfold sanitizeKey
    show String.mk ((s.data.map gunSanChar).map gunSanChar) = _
    rw [List.map_map]
    exact congrArg String.mk (List.map_congr_left (fun a _ => gunSanChar_idem a))
  · intro s c hc
    obtain ⟨a, _, rfl⟩ := List.mem_map.mp hc
    exact fbSanChar_closed a
  · intro s
    unfold fbSanitizedName
    show String.mk ((s.data.map fbSanChar).map fbSanChar) = _
    rw [List.map_map]
    exact congrArg String.mk (List.map_congr_left (fun a _ => fbSanChar_idem a))

/-- Witness for C10 on the concrete name "Wafer A.1": the underscore
produced for the space is itself in the Gun.js allowed set, both
sanitizations are idempotent on this name, and both variants' put and
delete keys agree. -/
theorem C10_sanitize_witness :
    gunAllowedChar '_' = true ∧
      sanitizeKey (sanitizeKey "Wafer A.1") = sanitizeKey "Wafer A.1" ∧
      fbForbiddenChar '_' = false ∧
      fbSanitizedName (fbSanitizedName "Wafer A.1") = fbSanitizedName "Wafer A.1" ∧
      gunSaveKey "Wafer A.1" = gunDeleteKey "Wafer A.1" ∧
      fbSaveKey "Wafer A.1" = fbDeleteKey "Wafer A.1" :=
  ⟨C10_sanitize.1 "A_b" '_' (by decide),
    C10_sanitize.2.1 "Wafer A.1",
    C10_sanitize.2.2.1 "A_b" '_' (by decide),
    C10_sanitize.2.2.2.1 "Wafer A.1",
    C10_sanitize.2.2.2.2.1 "Wafer A.1",
    C10_sanitize.2.2.2.2.2 "Wafer A.1"⟩

/-! ### C7 — coordinate lists -/

theorem deviceListsStep_case1 {cells : List JSVal} {size i : Nat}
    (a b c : List (Nat × Nat)) (h1 : jsGet cells i = JSVal.num 1) :
    deviceListsStep cells size (a, b, c) i = (a ++ [(i / size, i % size)], b, c) := by
  unfold deviceListsStep
  dsimp only
  rw [if_pos h1]

theorem deviceListsStep_case2 {cells : List JSVal} {size i : Nat}
    (a b c : List (Nat × Nat)) (h1 : ¬ jsGet cells i = JSVal.num 1)
    (h2 : jsGet cells i = JSVal.num 2) :
    deviceListsStep cells size (a, b, c) i = (a, b ++ [(i / size, i % size)], c) := by
  unfold deviceListsStep
  dsimp only
  rw [if_neg h1, if_pos h2]

theorem deviceListsStep_case3 {cells : List JSVal} {size i : Nat}
    (a b c : List (Nat × Nat)) (h1 : ¬ jsGet cells i = JSVal.num 1)
    (h2 : ¬ jsGet cells i = JSVal.num 2) (h3 : jsGet cells i = JSVal.num 3) :
    deviceListsStep cells size (a, b, c) i = (a, b, c ++ [(i / size, i % size)]) := by
  unfold deviceListsStep
  dsimp only
  rw [if_neg h1, if_neg h2, if_pos h3]

theorem deviceListsStep_case4 {cells : List JSVal} {size i : Nat}
    (a b c : List (Nat × Nat)) (h1 : ¬ jsGet cells i = JSVal.num 1)
    (h2 : ¬ jsGet cells i = JSVal.num 2) (h3 : ¬ jsGet cells i = JSVal.num 3) :
    deviceListsStep cells size (a, b, c) i = (a, b, c) := by
  unfold deviceListsStep
  dsimp only
  rw [if_neg h1, if_neg h2, if_neg h3]

theorem foldl_deviceListsStep (cells : List JSVal) (size : Nat) :
    ∀ (is : List Nat) (a b c : List (Nat × Nat)),
      is.foldl (deviceListsStep cells size) (a, b, c)
        = (a ++ (is.filter (fun i => decide (jsGet cells i = JSVal.num 1))).map
              (fun i => (i / size, i % size)),
           b ++ (is.filter (fun i => decide (jsGet cells i = JSVal.num 2))).map
              (fun i => (i / size, i % size)),
           c ++ (is.filter (fun i => decide (jsGet cells i = JSVal.num 3))).map
              (fun i => (i / size, i % size))) := by
  intro is
  induction is with
  | nil =>
      intro a b c
      simp
  | cons i is ih =>
      intro a b c
      rw [List.foldl_cons]
      by_cases h1 : jsGet cells i = JSVal.num 1
      · rw [deviceListsStep_case1 a b c h1, ih]
        simp [List.filter_cons, h1, List.append_assoc]
      · by_cases h2 : jsGet cells i = JSVal.num 2
        · rw [deviceListsStep_case2 a b c h1 h2, ih]
          simp [List.filter_cons, h1, h2, List.append_assoc]
        · by_cases h3 : jsGet cells i = JSVal.num 3
          · rw [deviceListsStep_case3 a b c h1 h2 h3, ih]
            simp [List.filter_cons, h1, h2, h3, List.append_assoc]
          · rw [deviceListsStep_case4 a b c h1 h2 h3, ih]
            simp [List.filter_cons, h1, h2, h3]

theorem deviceLists_eq (cells : List JSVal) (size : Nat) :
    deviceLists cells size
      = (coordsOfState cells size 1, coordsOfState cells size 2,
          coordsOfState cells size 3) := by
  unfold deviceLists coordsOfState
  rw [foldl_deviceListsStep]
  simp

theorem coord_linear_inverse (i s : Nat) : i / s * s + i % s = i := by
  rw [Nat.mul_comm]
  exact Nat.div_add_mod i s

theorem mem_coordsOfState_iff {cells : List JSVal} {size v i : Nat}
    (hi : i < cells.length) :
    ((i / size, i % size) ∈ coordsOfState cells size v)
      ↔ jsGet cells i = JSVal.num v := by
  unfold coordsOfState
  constructor
  · intro h
    obtain ⟨j, hj, hcoord⟩ := List.mem_map.mp h
    obtain ⟨hjr, hjv⟩ := List.mem_filter.mp hj
    have heq : j = i := by
      have h1 : j / size = i / size := congrArg Prod.fst hcoord
      have h2 : j % size = i % size := congrArg Prod.snd hcoord
      have hji := coord_linear_inverse j size
      have hii := coord_linear_inverse i size
      rw [h1, h2] at hji
      omega
    subst heq
    exact of_decide_eq_true hjv
  · intro h
    refine List.mem_map.mpr ⟨i, List.mem_filter.mpr ⟨List.mem_range.mpr hi, ?_⟩, rfl⟩
    simp [h]

theorem coordsOfState_elim {cells : List JSVal} {size v : Nat} (hpos : 0 < size)
    (hlen : cells.length = size * size) {p : Nat × Nat}
    (hp : p ∈ coordsOfState cells size v) :
    p.2 < size ∧ p.1 * size + p.2 < size * size ∧
      p.1 = (p.1 * size + p.2) / size ∧ p.2 = (p.1 * size + p.2) % size := by
  unfold coordsOfState at hp
  obtain ⟨j, hj, rfl⟩ := List.mem_map.mp hp
  obtain ⟨hjr, _⟩ := List.mem_filter.mp hj
  have hjlt : j < size * size := by
    rw [← hlen]
    exact List.mem_range.mp hjr
  have hinv : j / size * size + j % size = j := coord_linear_inverse j size
  have hmod : j % size < size := Nat.mod_lt _ hpos
  dsimp only
  rw [hinv]
  exact ⟨hmod, hjlt, rfl, rfl⟩

theorem pairwise_coordsOfState (cells : List JSVal) (size v : Nat) :
    List.Pairwise (· < ·)
      ((coordsOfState cells size v).map (fun p => p.1 * size + p.2)) := by
  unfold coordsOfState
  rw [List.map_map]
  have hpt : ∀ a ∈ (List.range cells.length).filter
      (fun i => decide (jsGet cells i = JSVal.num v)),
      ((fun p : Nat × Nat => p.1 * size + p.2) ∘ (fun i => (i / size, i % size))) a
        = id a := by
    intro a _
    show a / size * size + a % size = a
    exact coord_linear_inverse a size
  rw [List.map_congr_left hpt, List.map_id]
  exact List.Pairwise.filter _ (List.pairwise_lt_range _)

/-- C7: for every entry satisfying the grid invariant (with a positive
size), the export's coordinate lists are exhaustive and disjoint —
for every linear index `i` inside the grid, the pair
`(i div size, i mod size)` is in `successfulDevices` exactly when the
cell is 1, in `failedDevices` exactly when it is 2, in
`misalignedDevices` exactly when it is 3, and in none of the three
exactly when the cell is unmeasured; every listed pair decodes back to
an in-range linear index with `row = index div size` and
`col = index mod size`; and each list is ordered by strictly ascending
linear index. -/
theorem C7_coordinate_lists :
    ∀ e : Entry, WfEntry e → 0 < e.size →
      (∀ i, i < e.size * e.size →
        (((i / e.size, i % e.size) ∈ (exportCurrentEntry e).successfulDevices)
            ↔ jsGet e.measurements i = JSVal.num 1) ∧
        (((i / e.size, i % e.size) ∈ (exportCurrentEntry e).failedDevices)
            ↔ jsGet e.measurements i = JSVal.num 2) ∧
        (((i / e.size, i % e.size) ∈ (exportCurrentEntry e).misalignedDevices)
            ↔ jsGet e.measurements i = JSVal.num 3) ∧
        (jsGet e.measurements i = JSVal.num 0
            ↔ ((i / e.size, i % e.size) ∉ (exportCurrentEntry e).successfulDevices ∧
               (i / e.size, i % e.size) ∉ (exportCurrentEntry e).failedDevices ∧
               (i / e.size, i % e.size) ∉ (exportCurrentEntry e).misalignedDevices))) ∧
      (∀ p : Nat × Nat,
        (p ∈ (exportCurrentEntry e).successfulDevices ∨
          p ∈ (exportCurrentEntry e).failedDevices ∨
          p ∈ (exportCurrentEntry e).misalignedDevices) →
        p.2 < e.size ∧ p.1 * e.size + p.2 < e.size * e.size ∧
          p.1 = (p.1 * e.size + p.2) / e.size ∧
          p.2 = (p.1 * e.size + p.2) % e.size) ∧
      List.Pairwise (· < ·)
        ((exportCurrentEntry e).successfulDevices.map (fun p => p.1 * e.size + p.2)) ∧
      List.Pairwise (· < ·)
        ((exportCurrentEntry e).failedDevices.map (fun p => p.1 * e.size + p.2)) ∧
      List.Pairwise (· < ·)
        ((exportCurrentEntry e).misalignedDevices.map (fun p => p.1 * e.size + p.2)) := by
  intro e hwf hpos
  obtain ⟨hlen, hvals⟩ := hwf
  have hS : (exportCurrentEntry e).successfulDevices
      = coordsOfState e.measurements e.size 1 := by
    show (deviceLists e.measurements e.size).1 = _
    rw [deviceLists_eq]
  have hF : (exportCurrentEntry e).failedDevices
      = coordsOfState e.measurements e.size 2 := by
    show (deviceLists e.measurements e.size).2.1 = _
    rw [deviceLists_eq]
  have hM : (exportCurrentEntry e).misalignedDevices
      = coordsOfState e.measurements e.size 3 := by
    show (deviceLists e.measurements e.size).2.2 = _
    rw [deviceLists_eq]
  refine ⟨?_, ?_, ?_, ?_, ?_⟩
  · intro i hi
    have hi2 : i < e.measurements.length := by rw [hlen]; exact hi
    refine ⟨?_, ?_, ?_, ?_⟩
    · rw [hS]
      exact mem_coordsOfState_iff hi2
    · rw [hF]
      exact mem_coordsOfState_iff hi2
    · rw [hM]
      exact mem_coordsOfState_iff hi2
    · constructor
      · intro h0
        rw [hS, hF, hM]
        refine ⟨?_, ?_, ?_⟩ <;> intro hmem <;>
          [have hv := (mem_coordsOfState_iff hi2).mp hmem;
           have hv := (mem_coordsOfState_iff hi2).mp hmem;
           have hv := (mem_coordsOfState_iff hi2).mp hmem] <;>
          rw [h0] at hv <;> exact JSVal.noConfusion hv (fun hnum => by omega)
      · rintro ⟨hn1, hn2, hn3⟩
        have hmem : jsGet e.measurements i ∈ e.measurements := by
          unfold jsGet
          rw [List.getD_eq_getElem _ _ hi2]
          exact List.getElem_mem hi2
        rcases hvals _ hmem with h | h | h | h
        · exact h
        · exact absurd ((mem_coordsOfState_iff hi2).mpr h) (hS ▸ hn1)
        · exact absurd ((mem_coordsOfState_iff hi2).mpr h) (hF ▸ hn2)
        · exact absurd ((mem_coordsOfState_iff hi2).mpr h) (hM ▸ hn3)
  · intro p hp
    rcases hp with hp | hp | hp
    · exact coordsOfState_elim hpos hlen (hS ▸ hp)
    · exact coordsOfState_elim hpos hlen (hF ▸ hp)
    · exact coordsOfState_elim hpos hlen (hM ▸ hp)
  · rw [hS]
    exact pairwise_coordsOfState _ _ _
  · rw [hF]
    exact pairwise_coordsOfState _ _ _
  · rw [hM]
    exact pairwise_coordsOfState _ _ _

/-- A 2×2 entry with one cell in each state, for the C7 witness. -/
def c7entry : Entry :=
  { name := "W", size := 2, createdAt := 0, lastModified := 0,
    measurements := [JSVal.num 0, JSVal.num 1, JSVal.num 2, JSVal.num 3],
    timestamps := none }

/-- Witness for C7 at the concrete 2×2 entry `[0, 1, 2, 3]`: cell 1
(coordinates (0, 1)) is listed among the successful devices exactly
because its state is 1, and the successful-device list is sorted by
linear index. -/
theorem C7_coordinate_lists_witness :
    (((1 / c7entry.size, 1 % c7entry.size)
          ∈ (exportCurrentEntry c7entry).successfulDevices)
        ↔ jsGet c7entry.measurements 1 = JSVal.num 1) ∧
      List.Pairwise (· < ·)
        ((exportCurrentEntry c7entry).successfulDevices.map
          (fun p => p.1 * c7entry.size + p.2)) :=
  ⟨((C7_coordinate_lists c7entry (by decide) (by decide)).1 1 (by decide)).1,
    (C7_coordinate_lists c7entry (by decide) (by decide)).2.2.1⟩

end Crossbar
